import Mathlib

/-!
Shallow embedding of the Distillation Orchestration & State Versioning Engine
of the phosphor repository (src/backend/app), translated from the Python
source:

  * `app/models/lab_state.py`    — `LabState` rows, uniqueness of `(lab_id, version)`
  * `app/models/signal.py`       — `RawSignal` rows
  * `app/models/distillation.py` — `DistillationRun` rows
  * `app/schemas/lab_state.py`   — pydantic schema `LabStateData` (strict mode)
  * `app/services/distillation.py` — `run_distillation`, `get_unprocessed_signals`
  * `app/tasks/distill.py`       — `_run_distillation_async` (the Celery task body)

Modelling conventions:
  * UUIDs are modelled as `Nat` identifiers; timestamps as `Nat`.
  * The relational store is a `DB` record of three row lists.  The SQLAlchemy
    session is modelled functionally: an attempt computes, from a snapshot of
    the database, the rows it would flush; the single `session.commit()` in
    `_run_distillation_async` either applies all of them to the durable
    database (checking the `uq_lab_states_lab_version` uniqueness constraint)
    or — when the attempt raised — rolls everything back, leaving the durable
    database unchanged.  This mirrors `async with AsyncSessionLocal() as
    session: ...; await session.commit()`, where an exception escapes the
    block before the commit and the closed session discards all uncommitted
    writes (flushed or not).
  * External libraries are kept abstract in an `Env` record: the LLM call
    (`litellm.acompletion`) is a function from the user prompt to an optional
    response text (`none` = the call raised, e.g. timeout), `json.loads` is an
    abstract partial parser into a `Json` value, `json.dumps` /
    `model_dump_json` are abstract serializers, and `tiktoken` token counting
    is an abstract `String → Nat`.
  * Python's `str.strip` / `str.split("\n")` / `"\n".join` are given
    executable equivalents over the character list of the string.
-/

/-- JSON values, the target of `json.loads` (integer-valued numbers suffice
for this schema; `signal_count` is the only numeric field). -/
inductive Json where
  | null
  | bool (b : Bool)
  | num (n : Int)
  | str (s : String)
  | arr (xs : List Json)
  | obj (fields : List (String × Json))

/-- Look a key up in a JSON object, `none` when absent or not an object
(pydantic treats absent keys as "use the field default"). -/
def jGet (j : Json) (key : String) : Option Json :=
  match j with
  | .obj fields => fields.lookup key
  | _ => none

/-- Schema `Equipment` of `app/schemas/lab_state.py`. -/
structure Equipment where
  name : String
  capabilities : List String := []
  limitations : Option String := none
deriving Repr, DecidableEq

/-- Schema `Technique`; `proficiency` is the literal
`"expert" | "competent" | "learning"`, enforced by the validator. -/
structure Technique where
  name : String
  proficiency : String
  notes : Option String := none
deriving Repr, DecidableEq

/-- Schema `Expertise`; `confidence` is the literal `"high"|"medium"|"low"`. -/
structure Expertise where
  domain : String
  confidence : String
deriving Repr, DecidableEq

/-- Schema `Organism`. -/
structure Organism where
  name : String
  strains : List String := []
  notes : Option String := none
deriving Repr, DecidableEq

/-- Schema `Reagent`. -/
structure Reagent where
  name : String
  quantity : Option String := none
  notes : Option String := none
deriving Repr, DecidableEq

/-- Schema `ExperimentSummary`; `outcome` is the literal
`"success"|"partial"|"failed"`. -/
structure ExperimentSummary where
  technique : String
  outcome : String
  insight : String
deriving Repr, DecidableEq

/-- Schema `ResourceConstraints`. -/
structure ResourceConstraints where
  budget_notes : Option String := none
  time_constraints : Option String := none
  personnel_notes : Option String := none
deriving Repr, DecidableEq

/-- Schema `LabStateData`: the compressed lab state; `signal_count` carries
the pydantic constraint `ge=0`, so it is a `Nat` here. -/
structure LabStateData where
  equipment : List Equipment := []
  techniques : List Technique := []
  expertise : List Expertise := []
  organisms : List Organism := []
  reagents : List Reagent := []
  experimental_history : List ExperimentSummary := []
  resource_constraints : ResourceConstraints := {}
  signal_count : Nat := 0
deriving Repr, DecidableEq

/-- `create_empty_state` of `app/services/distillation.py`:
`LabStateData(signal_count=0).model_dump()`. -/
def create_empty_state : LabStateData := {}

/-- Strict-mode string field with length bounds
(`Field(..., min_length=lo, max_length=hi)`). -/
def vStr (lo hi : Nat) : Json → Option String
  | .str s => if lo ≤ s.length && s.length ≤ hi then some s else none
  | _ => none

/-- Strict-mode `str | None` field with a `max_length` bound; JSON `null` is
accepted as `None`. -/
def vOptStr (hi : Nat) : Json → Option (Option String)
  | .null => some none
  | .str s => if s.length ≤ hi then some (some s) else none
  | _ => none

/-- Strict-mode `str` literal field: the value must be one of the allowed
strings. -/
def vLiteral (allowed : List String) : Json → Option String
  | .str s => if allowed.contains s then some s else none
  | _ => none

/-- Strict-mode `list[str]` field with a `max_length` (item-count) bound. -/
def vListStr (hi : Nat) : Json → Option (List String)
  | .arr xs =>
    if xs.length ≤ hi then
      xs.mapM (fun j => match j with | .str s => some s | _ => none)
    else none
  | _ => none

/-- A field with a default: absent means the default, present means validate
the value (pydantic default semantics; `null` is only legal where the field
type admits `None`). -/
def vField (validate : Json → Option α) (dflt : α) : Option Json → Option α
  | none => some dflt
  | some v => validate v

/-- A required field: absent is a validation error. -/
def vRequired (validate : Json → Option α) : Option Json → Option α
  | none => none
  | some v => validate v

/-- `Equipment.model_validate` (strict mode). -/
def Equipment.validate (j : Json) : Option Equipment := do
  let .obj _ := j | none
  let name ← vRequired (vStr 1 200) (jGet j "name")
  let capabilities ← vField (vListStr 20) [] (jGet j "capabilities")
  let limitations ← vField (vOptStr 500) none (jGet j "limitations")
  pure { name := name, capabilities := capabilities, limitations := limitations }

/-- `Technique.model_validate` (strict mode). -/
def Technique.validate (j : Json) : Option Technique := do
  let .obj _ := j | none
  let name ← vRequired (vStr 1 200) (jGet j "name")
  let proficiency ← vRequired (vLiteral ["expert", "competent", "learning"]) (jGet j "proficiency")
  let notes ← vField (vOptStr 500) none (jGet j "notes")
  pure { name := name, proficiency := proficiency, notes := notes }

/-- `Expertise.model_validate` (strict mode). -/
def Expertise.validate (j : Json) : Option Expertise := do
  let .obj _ := j | none
  let domain ← vRequired (vStr 1 200) (jGet j "domain")
  let confidence ← vRequired (vLiteral ["high", "medium", "low"]) (jGet j "confidence")
  pure { domain := domain, confidence := confidence }

/-- `Organism.model_validate` (strict mode). -/
def Organism.validate (j : Json) : Option Organism := do
  let .obj _ := j | none
  let name ← vRequired (vStr 1 200) (jGet j "name")
  let strains ← vField (vListStr 20) [] (jGet j "strains")
  let notes ← vField (vOptStr 500) none (jGet j "notes")
  pure { name := name, strains := strains, notes := notes }

/-- `Reagent.model_validate` (strict mode). -/
def Reagent.validate (j : Json) : Option Reagent := do
  let .obj _ := j | none
  let name ← vRequired (vStr 1 200) (jGet j "name")
  let quantity ← vField (vOptStr 100) none (jGet j "quantity")
  let notes ← vField (vOptStr 500) none (jGet j "notes")
  pure { name := name, quantity := quantity, notes := notes }

/-- `ExperimentSummary.model_validate` (strict mode). -/
def ExperimentSummary.validate (j : Json) : Option ExperimentSummary := do
  let .obj _ := j | none
  let technique ← vRequired (vStr 1 200) (jGet j "technique")
  let outcome ← vRequired (vLiteral ["success", "partial", "failed"]) (jGet j "outcome")
  let insight ← vRequired (vStr 1 500) (jGet j "insight")
  pure { technique := technique, outcome := outcome, insight := insight }

/-- `ResourceConstraints.model_validate` (strict mode). -/
def ResourceConstraints.validate (j : Json) : Option ResourceConstraints := do
  let .obj _ := j | none
  let budget_notes ← vField (vOptStr 500) none (jGet j "budget_notes")
  let time_constraints ← vField (vOptStr 500) none (jGet j "time_constraints")
  let personnel_notes ← vField (vOptStr 500) none (jGet j "personnel_notes")
  pure { budget_notes := budget_notes, time_constraints := time_constraints,
         personnel_notes := personnel_notes }

/-- A `list[Model]` field with a `max_length` (item-count) bound. -/
def vListOf (validate : Json → Option α) (hi : Nat) : Json → Option (List α)
  | .arr xs => if xs.length ≤ hi then xs.mapM validate else none
  | _ => none

/-- Strict-mode `int` field with `ge=0`. -/
def vCount : Json → Option Nat
  | .num n => if 0 ≤ n then some n.toNat else none
  | _ => none

/-- `LabStateData.model_validate` (strict mode): the schema-validation step of
`run_distillation` (`app/services/distillation.py` line 166). -/
def LabStateData.validate (j : Json) : Option LabStateData := do
  let .obj _ := j | none
  let equipment ← vField (vListOf Equipment.validate 50) [] (jGet j "equipment")
  let techniques ← vField (vListOf Technique.validate 50) [] (jGet j "techniques")
  let expertise ← vField (vListOf Expertise.validate 30) [] (jGet j "expertise")
  let organisms ← vField (vListOf Organism.validate 20) [] (jGet j "organisms")
  let reagents ← vField (vListOf Reagent.validate 50) [] (jGet j "reagents")
  let experimental_history ←
    vField (vListOf ExperimentSummary.validate 30) [] (jGet j "experimental_history")
  let resource_constraints ←
    vField ResourceConstraints.validate {} (jGet j "resource_constraints")
  let signal_count ← vField vCount 0 (jGet j "signal_count")
  pure { equipment := equipment, techniques := techniques, expertise := expertise,
         organisms := organisms, reagents := reagents,
         experimental_history := experimental_history,
         resource_constraints := resource_constraints,
         signal_count := signal_count }

/-- Python `str.strip()`: drop whitespace from both ends. -/
def pyStrip (s : String) : String :=
  ⟨((s.data.dropWhile Char.isWhitespace).reverse.dropWhile Char.isWhitespace).reverse⟩

/-- Python `str.split("\n")` (keeps empty chunks, no collapsing). -/
def splitLinesAux : List Char → List Char → List (List Char)
  | [], acc => [acc.reverse]
  | c :: cs, acc =>
    if c = '\n' then acc.reverse :: splitLinesAux cs []
    else splitLinesAux cs (c :: acc)

/-- Python `str.split("\n")` on a `String`. -/
def splitLines (s : String) : List String :=
  (splitLinesAux s.data []).map (fun l => ⟨l⟩)

/-- Python `"\n".join(...)`. -/
def joinLines : List String → String
  | [] => ""
  | [l] => l
  | l :: ls => l ++ "\n" ++ joinLines ls

/-- Python `response_text.startswith("```")`. -/
def startsWithFence (s : String) : Bool :=
  "```".data.isPrefixOf s.data

/-- The response-parsing preamble of `run_distillation`
(`app/services/distillation.py` lines 154-161): strip whitespace, then, when
the text starts with a code fence, drop the first and the last line
(`lines[1:-1]`) unconditionally. The result is what `json.loads` receives. -/
def parseResponseText (content : String) : String :=
  let response_text := pyStrip content
  if startsWithFence response_text then
    joinLines (((splitLines response_text).drop 1).dropLast)
  else response_text

/-- A committed `LabState` row (`app/models/lab_state.py`); the table carries
the uniqueness constraint `uq_lab_states_lab_version` on `(lab_id, version)`,
checked at commit below. -/
structure LabStateRow where
  lab_id : Nat
  version : Nat
  state : LabStateData
  token_count : Nat
  created_by : String
deriving Repr, DecidableEq

/-- A `RawSignal` row (`app/models/signal.py`). -/
structure RawSignalRow where
  id : Nat
  lab_id : Nat
  signal_type : String
  content : Json
  processed : Bool
  created_at : Nat

/-- A `DistillationRun` row (`app/models/distillation.py`). -/
structure DistillationRunRow where
  lab_id : Nat
  input_state_version : Option Nat
  output_state_version : Nat
  signals_processed : List Nat
  prompt_version : String
  llm_model : String
  status : String
  completed_at : Option Nat
deriving Repr, DecidableEq

/-- The relational store: the three append-only logs the engine touches. -/
structure DB where
  lab_states : List LabStateRow
  raw_signals : List RawSignalRow
  distillation_runs : List DistillationRunRow

/-- External collaborators of `run_distillation`, kept abstract:
`llm` models `litellm.acompletion` applied to the user prompt (`none` = the
call raised, e.g. a timeout), `jsonParse` models `json.loads` (`none` = a
`JSONDecodeError`), `jsonDumps` models `json.dumps` on a signal's content,
`dumpStateJson` models `json.dumps` on the current state dict in the prompt,
`model_dump_json` models pydantic serialization for token counting, and
`countTokens` models `count_tokens` (tiktoken with its `len // 4` fallback).
`llm_model` and `max_state_tokens` come from `Settings`
(`app/core/config.py`); `now` models `datetime.now(UTC)`. -/
structure Env where
  llm_model : String
  max_state_tokens : Nat
  llm : String → Option String
  jsonParse : String → Option Json
  jsonDumps : Json → String
  dumpStateJson : LabStateData → String
  model_dump_json : LabStateData → String
  countTokens : String → Nat
  now : Nat

/-- `PROMPT_VERSION` of `app/services/distillation.py`. -/
def PROMPT_VERSION : String := "v1.0.0"

/-- Fold mirroring `ORDER BY version DESC LIMIT 1`: keep the row with the
greatest version. -/
def pickLatest : Option LabStateRow → LabStateRow → Option LabStateRow
  | none, r => some r
  | some a, r => if a.version < r.version then some r else some a

/-- The `current_state` read of `run_distillation` (lines 89-95):
`SELECT ... WHERE lab_id = :lab ORDER BY version DESC LIMIT 1`. -/
def latestState (db : DB) (lab_id : Nat) : Option LabStateRow :=
  (db.lab_states.filter (fun r => r.lab_id == lab_id)).foldl pickLatest none

/-- Lines 97-104 of `run_distillation`: current state data (or the canonical
empty state), `input_version`, and `new_version`. -/
def nextVersionInfo (db : DB) (lab_id : Nat) : LabStateData × Option Nat × Nat :=
  match latestState db lab_id with
  | some cs => (cs.state, some cs.version, cs.version + 1)
  | none => (create_empty_state, none, 1)

/-- The output version an attempt computes (1 with no prior state, else
`current.version + 1`). -/
def nextVersion (db : DB) (lab_id : Nat) : Nat :=
  (nextVersionInfo db lab_id).2.2

/-- The signal resolution of `run_distillation` (lines 106-110):
`SELECT * FROM raw_signals WHERE id IN signal_ids` — note that the source
filters by id only, with no `lab_id` condition. -/
def resolveSignals (db : DB) (signal_ids : List Nat) : List RawSignalRow :=
  db.raw_signals.filter (fun s => signal_ids.contains s.id)

/-- One entry of `signals_text` (line 116-119):
`f"Signal {i+1} (type: {s.signal_type}):\n{json.dumps(s.content, indent=2)}"`. -/
def signalEntry (env : Env) (i : Nat) (s : RawSignalRow) : String :=
  "Signal " ++ toString (i + 1) ++ " (type: " ++ s.signal_type ++ "):\n"
    ++ env.jsonDumps s.content

/-- Python `"\n\n".join(...)`. -/
def joinBlocks : List String → String
  | [] => ""
  | [l] => l
  | l :: ls => l ++ "\n\n" ++ joinBlocks ls

/-- `signals_text` of `run_distillation` (lines 116-119). -/
def signals_text (env : Env) (signals : List RawSignalRow) : String :=
  joinBlocks (signals.enum.map (fun p => signalEntry env p.1 p.2))

/-- `user_prompt` of `run_distillation` (lines 136-142). -/
def user_prompt (env : Env) (current_state_data : LabStateData)
    (signals : List RawSignalRow) : String :=
  "Current state:\n" ++ env.dumpStateJson current_state_data
    ++ "\n\nNew signals to incorporate:\n" ++ signals_text env signals
    ++ "\n\nOutput the updated lab state JSON:"

/-- The body of the `try` block up to schema validation (lines 144-166): call
the LLM, strip an optional code fence, `json.loads`, `model_validate`.
`none` is any of the three exceptions (LLM failure, parse failure, validation
failure). -/
def compressAndValidate (env : Env) (current_state_data : LabStateData)
    (signals : List RawSignalRow) : Option LabStateData := do
  let content ← env.llm (user_prompt env current_state_data signals)
  let response_text := parseResponseText content
  let j ← env.jsonParse response_text
  LabStateData.validate j

/-- The two ways `run_distillation` raises: `ValueError("No signals found to
process")` (before the run row is created) and `ValueError("Distillation
failed: ...")` (the `except` re-raise wrapping any later exception, including
a version-conflict `IntegrityError` at commit). -/
inductive RunError where
  | noSignals
  | distillationFailed
deriving Repr, DecidableEq

/-- Decidable equality on `Except`, so closed outcomes can be checked by
evaluation. -/
instance instDecEqExcept {ε α : Type} [DecidableEq ε] [DecidableEq α] :
    DecidableEq (Except ε α) := fun a b =>
  match a, b with
  | .error e, .error f => decidable_of_iff (e = f) (by simp)
  | .error _, .ok _ => .isFalse (by simp)
  | .ok _, .error _ => .isFalse (by simp)
  | .ok x, .ok y => decidable_of_iff (x = y) (by simp)

/-- What `run_distillation` has flushed into the session when it returns or
raises: `noSignals` (raised before the run-row reservation), `failed run`
(the except branch flushed the run row with `status="failed"`), or
`ok run newState` (run row `status="completed"`, the new state row, and the
`processed=True` update are all flushed, pending commit). -/
inductive RunOutcome where
  | noSignals
  | failed (run : DistillationRunRow)
  | ok (run : DistillationRunRow) (newState : LabStateRow)
deriving Repr, DecidableEq

/-- `run_distillation` of `app/services/distillation.py` (lines 65-213),
as the session-level outcome of one attempt reading from snapshot `db`. -/
def run_distillation (env : Env) (db : DB) (lab_id : Nat)
    (signal_ids : List Nat) : RunOutcome :=
  let info := nextVersionInfo db lab_id
  let current_state_data := info.1
  let input_version := info.2.1
  let new_version := info.2.2
  let signals := resolveSignals db signal_ids
  if signals.isEmpty then
    .noSignals
  else
    let run : DistillationRunRow :=
      { lab_id := lab_id
        input_state_version := input_version
        output_state_version := new_version
        signals_processed := signals.map (fun s => s.id)
        prompt_version := PROMPT_VERSION
        llm_model := env.llm_model
        status := "running"
        completed_at := none }
    match compressAndValidate env current_state_data signals with
    | none =>
      .failed { run with status := "failed", completed_at := some env.now }
    | some validated0 =>
      -- line 169-171: override the LLM-returned counter
      let validated :=
        { validated0 with
            signal_count := current_state_data.signal_count + signals.length }
      let state_json := env.model_dump_json validated
      let token_count := env.countTokens state_json
      -- lines 177-180: budget overrun is observed but not corrected
      let _over_budget := env.max_state_tokens < token_count
      let new_state : LabStateRow :=
        { lab_id := lab_id
          version := new_version
          state := validated
          token_count := token_count
          created_by := "system" }
      .ok { run with status := "completed", completed_at := some env.now } new_state

/-- The `UPDATE raw_signals SET processed = true WHERE id IN signal_ids`
of lines 192-197 — again by id only, with no `lab_id` condition. -/
def markProcessed (signals : List RawSignalRow) (ids : List Nat) :
    List RawSignalRow :=
  signals.map (fun s =>
    if ids.contains s.id then
      { s with processed := true }
    else s)

/-- The `uq_lab_states_lab_version` uniqueness check: does a committed row
with this `(lab_id, version)` pair already exist? -/
def hasVersion (db : DB) (lab_id v : Nat) : Bool :=
  db.lab_states.any (fun r => r.lab_id == lab_id && r.version == v)

/-- Durable result of one attempt: the database after commit-or-rollback,
and the value returned or the error re-raised to the caller. -/
structure AttemptOutcome where
  db : DB
  result : Except RunError LabStateRow

/-- One full attempt: `run_distillation` reads from `snapshot` (the state of
the world when its session's reads executed) and the single
`session.commit()` of `_run_distillation_async` runs against the current
durable database `db`.  On any exception the session is closed without
commit, so every flushed write — including the `status="failed"` run row —
is rolled back and `db` is returned unchanged; on success the commit checks
the `(lab_id, version)` uniqueness constraint and either applies the new
state row, the `processed=True` flips and the completed run row as one unit,
or fails the attempt (a second commit of the same pair is refused, never an
overwrite).  The serial case is `attempt env db db lab ids`. -/
def attempt (env : Env) (snapshot db : DB) (lab_id : Nat)
    (signal_ids : List Nat) : AttemptOutcome :=
  match run_distillation env snapshot lab_id signal_ids with
  | .noSignals => ⟨db, .error .noSignals⟩
  | .failed _ => ⟨db, .error .distillationFailed⟩
  | .ok run newState =>
    if hasVersion db newState.lab_id newState.version then
      ⟨db, .error .distillationFailed⟩
    else
      ⟨{ lab_states := db.lab_states ++ [newState]
         raw_signals := markProcessed db.raw_signals signal_ids
         distillation_runs := db.distillation_runs ++ [run] },
       .ok newState⟩

/-- Stable insertion by `created_at` (ascending), modelling
`ORDER BY created_at`. -/
def insertByTime (s : RawSignalRow) : List RawSignalRow → List RawSignalRow
  | [] => [s]
  | t :: ts =>
    if s.created_at < t.created_at then s :: t :: ts
    else t :: insertByTime s ts

/-- Stable sort by `created_at` (ascending). -/
def sortByCreatedAt : List RawSignalRow → List RawSignalRow
  | [] => []
  | s :: ss => insertByTime s (sortByCreatedAt ss)

/-- `get_unprocessed_signals` of `app/services/distillation.py`
(lines 216-231): unprocessed signals of the lab, oldest first, capped at
`limit` (default 10). -/
def get_unprocessed_signals (db : DB) (lab_id : Nat) (limit : Nat := 10) :
    List RawSignalRow :=
  (sortByCreatedAt
    (db.raw_signals.filter (fun s => s.lab_id == lab_id && !s.processed))).take limit

/-- The value `_run_distillation_async` returns: the early
`{"status": "no_signals", ...}` dict, or the completed dict with
`new_version`, `token_count` and `signals_processed = len(ids)`. -/
inductive TaskResult where
  | noSignalsMsg
  | completed (new_version : Nat) (token_count : Nat) (signals_processed : Nat)
deriving Repr, DecidableEq

/-- Durable outcome of the Celery task body: the database after the task,
and its returned value or propagated error. -/
structure TaskOutcome where
  db : DB
  result : Except RunError TaskResult

/-- Run `run_distillation` and commit, shaping the task's return dict
(lines 59-70 of `app/tasks/distill.py`). -/
def runTask (env : Env) (db : DB) (lab_id : Nat) (ids : List Nat) :
    TaskOutcome :=
  let a := attempt env db db lab_id ids
  match a.result with
  | .error e => ⟨a.db, .error e⟩
  | .ok st => ⟨a.db, .ok (.completed st.version st.token_count ids.length)⟩

/-- `_run_distillation_async` of `app/tasks/distill.py` (lines 38-70):
`if signal_ids:` is Python truthiness, so `None` and `[]` both take the
"all unprocessed" branch, which returns the no-signals dict (without
raising) when the lab has no unprocessed signals. -/
def distillTask (env : Env) (db : DB) (lab_id : Nat)
    (signal_ids : Option (List Nat)) : TaskOutcome :=
  let truthy := match signal_ids with
    | some ids => !ids.isEmpty
    | none => false
  if truthy then
    runTask env db lab_id (signal_ids.getD [])
  else
    let signals := get_unprocessed_signals db lab_id 10
    if signals.isEmpty then ⟨db, .ok .noSignalsMsg⟩
    else runTask env db lab_id (signals.map (fun s => s.id))

/-- Settings/collaborator fixture for a well-behaved compression call: the
LLM answers `"{}"`, which `json.loads` parses to the empty object and the
schema validates to the default (empty) state. -/
def envOK : Env :=
  { llm_model := "claude-sonnet-4-20250514"
    max_state_tokens := 2000
    llm := fun _ => some "{}"
    jsonParse := fun s => if s = "{}" then some (.obj []) else none
    jsonDumps := fun _ => "null"
    dumpStateJson := fun _ => "{}"
    model_dump_json := fun _ => "{}"
    countTokens := fun s => s.length / 4
    now := 100 }

/-- Fixture for a malformed compression response: the LLM answers text that
`json.loads` rejects. -/
def envBad : Env :=
  { envOK with
    llm := fun _ => some "this is not the expected structured format"
    jsonParse := fun _ => none }

/-- Fixture whose token counter reports far more than the 2000-token budget. -/
def envBig : Env :=
  { envOK with countTokens := fun _ => 5000 }

/-- One unprocessed signal (id 10) owned by lab 1; no states, no runs. -/
def dbOne : DB :=
  { lab_states := []
    raw_signals := [{ id := 10, lab_id := 1, signal_type := "experiment",
                      content := Json.null, processed := false, created_at := 1 }]
    distillation_runs := [] }

/-- One unprocessed signal (id 10) owned by lab 2; no states, no runs. -/
def dbCross : DB :=
  { lab_states := []
    raw_signals := [{ id := 10, lab_id := 2, signal_type := "experiment",
                      content := Json.null, processed := false, created_at := 1 }]
    distillation_runs := [] }

/-- Lab 1's only signal is already processed. -/
def dbProcessed : DB :=
  { lab_states := []
    raw_signals := [{ id := 10, lab_id := 1, signal_type := "experiment",
                      content := Json.null, processed := true, created_at := 1 }]
    distillation_runs := [] }

/-- One signal row for the bulk fixture. -/
def mkSignal (i : Nat) : RawSignalRow :=
  { id := i, lab_id := 1, signal_type := "experiment",
    content := Json.null, processed := false, created_at := i }

/-- Eleven unprocessed signals (ids 1..11) owned by lab 1. -/
def dbEleven : DB :=
  { lab_states := []
    raw_signals := (List.range' 1 11).map mkSignal
    distillation_runs := [] }

/-- The state row a successful `envOK` run on `dbOne` commits. -/
def stOne : LabStateRow :=
  { lab_id := 1, version := 1, state := { signal_count := 1 },
    token_count := 0, created_by := "system" }

/-- The completed run row of that same attempt. -/
def runOne : DistillationRunRow :=
  { lab_id := 1, input_state_version := none, output_state_version := 1,
    signals_processed := [10], prompt_version := "v1.0.0",
    llm_model := "claude-sonnet-4-20250514", status := "completed",
    completed_at := some 100 }

/-- The committed `version` values of one tenant, in table order. -/
def versionsOf (db : DB) (lab_id : Nat) : List Nat :=
  (db.lab_states.filter (fun r => r.lab_id == lab_id)).map (fun r => r.version)

/-- The StateVersionLog invariant: for every tenant, the committed versions
are — up to order — exactly `1, 2, ..., n` (unique, contiguous, starting
at 1). -/
def ContiguousVersions (db : DB) : Prop :=
  ∀ lab_id, (versionsOf db lab_id).Perm (List.range' 1 (versionsOf db lab_id).length)

/-- The `signal_count` the pipeline adds onto:
`current_state_data.get("signal_count", 0)` — the latest committed state's
counter, or 0 for a fresh tenant (the empty state's counter). -/
def prevSignalCount (db : DB) (lab_id : Nat) : Nat :=
  (nextVersionInfo db lab_id).1.signal_count

/-- The failed run row the `except` branch of `run_distillation` flushes for
an `envBad` attempt on `dbOne` (and which the rollback then discards). -/
def failedRunOne : DistillationRunRow :=
  { lab_id := 1, input_state_version := none, output_state_version := 1,
    signals_processed := [10], prompt_version := "v1.0.0",
    llm_model := "claude-sonnet-4-20250514", status := "failed",
    completed_at := some 100 }

/-- Folding `pickLatest` from `some a` yields an element of `a :: l` whose
version bounds every version in the list. -/
theorem foldl_pickLatest_spec (l : List LabStateRow) (a : LabStateRow) :
    ∃ r, l.foldl pickLatest (some a) = some r ∧ (r = a ∨ r ∈ l) ∧
      a.version ≤ r.version ∧ ∀ x ∈ l, x.version ≤ r.version := by
  induction l generalizing a with
  | nil => exact ⟨a, rfl, Or.inl rfl, Nat.le_refl _, by simp⟩
  | cons x xs ih =>
    by_cases hlt : a.version < x.version
    · obtain ⟨r, hr, hmem, hle, hall⟩ := ih x
      refine ⟨r, ?_, ?_, ?_, ?_⟩
      · simpa [pickLatest, hlt] using hr
      · rcases hmem with h | h
        · exact Or.inr (h ▸ List.mem_cons_self x xs)
        · exact Or.inr (List.mem_cons_of_mem x h)
      · exact Nat.le_of_lt (Nat.lt_of_lt_of_le hlt hle)
      · intro y hy
        rcases List.mem_cons.mp hy with h | h
        · exact h ▸ hle
        · exact hall y h
    · obtain ⟨r, hr, hmem, hle, hall⟩ := ih a
      refine ⟨r, ?_, ?_, ?_, ?_⟩
      · simpa [pickLatest, hlt] using hr
      · rcases hmem with h | h
        · exact Or.inl h
        · exact Or.inr (List.mem_cons_of_mem x h)
      · exact hle
      · intro y hy
        rcases List.mem_cons.mp hy with h | h
        · exact h ▸ Nat.le_trans (Nat.le_of_not_lt hlt) hle
        · exact hall y h

/-- `latestState` is `none` exactly when the tenant has no committed state. -/
theorem latestState_none_iff (db : DB) (lab_id : Nat) :
    latestState db lab_id = none ↔
      db.lab_states.filter (fun r => r.lab_id == lab_id) = [] := by
  unfold latestState
  cases h : db.lab_states.filter (fun r => r.lab_id == lab_id) with
  | nil => simp
  | cons x xs =>
    simp only [List.foldl_cons]
    have hx : pickLatest none x = some x := rfl
    rw [hx]
    obtain ⟨r, hr, -, -, -⟩ := foldl_pickLatest_spec xs x
    simp [hr]

/-- A `latestState` result is a row of the tenant with the maximal version. -/
theorem latestState_mem_max (db : DB) (lab_id : Nat) (r : LabStateRow)
    (h : latestState db lab_id = some r) :
    r ∈ db.lab_states.filter (fun x => x.lab_id == lab_id) ∧
    ∀ x ∈ db.lab_states.filter (fun x => x.lab_id == lab_id),
      x.version ≤ r.version := by
  unfold latestState at h
  cases hf : db.lab_states.filter (fun x => x.lab_id == lab_id) with
  | nil => rw [hf] at h; simp at h
  | cons x xs =>
    rw [hf] at h
    simp only [List.foldl_cons] at h
    have hx : pickLatest none x = some x := rfl
    rw [hx] at h
    obtain ⟨r', hr', hmem, hle, hall⟩ := foldl_pickLatest_spec xs x
    rw [hr'] at h
    cases h
    constructor
    · rcases hmem with h | h
      · exact h ▸ List.mem_cons_self x xs
      · exact List.mem_cons_of_mem x h
    · intro y hy
      rcases List.mem_cons.mp hy with h | h
      · exact h ▸ hle
      · exact hall y h

/-- Under the contiguity invariant, the next version an attempt computes is
`count + 1` (so 1 for a fresh tenant). -/
theorem nextVersion_of_contiguous (db : DB) (lab_id : Nat)
    (h : ContiguousVersions db) :
    nextVersion db lab_id = (versionsOf db lab_id).length + 1 := by
  unfold nextVersion nextVersionInfo
  cases hl : latestState db lab_id with
  | none =>
    have hf := (latestState_none_iff db lab_id).mp hl
    simp [versionsOf, hf]
  | some r =>
    obtain ⟨hmem, hmax⟩ := latestState_mem_max db lab_id r hl
    have hperm := h lab_id
    have hrv : r.version ∈ versionsOf db lab_id :=
      List.mem_map_of_mem (fun x => x.version) hmem
    have h1 : r.version ≤ (versionsOf db lab_id).length := by
      have := hperm.mem_iff.mp hrv
      rw [List.mem_range'_1] at this
      omega
    have hne : versionsOf db lab_id ≠ [] := by
      intro hnil
      rw [hnil] at hrv
      simp at hrv
    have hlen : 1 ≤ (versionsOf db lab_id).length := by
      have := List.length_pos.mpr hne
      omega
    have h2 : (versionsOf db lab_id).length ∈ versionsOf db lab_id := by
      apply hperm.mem_iff.mpr
      rw [List.mem_range'_1]
      omega
    obtain ⟨x, hx, hxv⟩ := List.mem_map.mp h2
    have h3 := hmax x hx
    simp only []
    omega

/-- `hasVersion` decides membership of the version multiset. -/
theorem hasVersion_iff (db : DB) (lab_id v : Nat) :
    hasVersion db lab_id v = true ↔ v ∈ versionsOf db lab_id := by
  unfold hasVersion versionsOf
  rw [List.any_eq_true]
  constructor
  · rintro ⟨r, hr, hb⟩
    have h1 : r.lab_id = lab_id ∧ r.version = v := by simpa using hb
    exact List.mem_map.mpr ⟨r, List.mem_filter.mpr ⟨hr, by simp [h1.1]⟩, h1.2⟩
  · intro hv
    obtain ⟨r, hrf, hrv⟩ := List.mem_map.mp hv
    obtain ⟨hr, hlab⟩ := List.mem_filter.mp hrf
    refine ⟨r, hr, ?_⟩
    simp only [beq_iff_eq] at hlab
    simp [hlab, hrv]

/-- `run_distillation` returns `noSignals` exactly when the id list resolves
to no signal rows at all. -/
theorem run_distillation_noSignals_iff (env : Env) (db : DB) (lab_id : Nat)
    (signal_ids : List Nat) :
    run_distillation env db lab_id signal_ids = .noSignals ↔
      (resolveSignals db signal_ids).isEmpty = true := by
  cases he : (resolveSignals db signal_ids).isEmpty with
  | true => simp [run_distillation, he]
  | false =>
    simp only [run_distillation, he, Bool.false_eq_true, if_false]
    cases compressAndValidate env (nextVersionInfo db lab_id).1
        (resolveSignals db signal_ids) <;> simp

/-- Inversion of a successful `run_distillation`: every field of the
returned rows is determined by the snapshot and the environment. -/
theorem run_distillation_ok_char (env : Env) (db : DB) (lab_id : Nat)
    (signal_ids : List Nat) (run : DistillationRunRow) (st : LabStateRow)
    (h : run_distillation env db lab_id signal_ids = .ok run st) :
    st.lab_id = lab_id ∧ st.version = nextVersion db lab_id ∧
    st.state.signal_count =
      (nextVersionInfo db lab_id).1.signal_count
        + (resolveSignals db signal_ids).length ∧
    st.token_count = env.countTokens (env.model_dump_json st.state) ∧
    st.created_by = "system" ∧
    run.lab_id = lab_id ∧ run.output_state_version = nextVersion db lab_id ∧
    run.input_state_version = (nextVersionInfo db lab_id).2.1 ∧
    run.status = "completed" ∧ run.completed_at = some env.now ∧
    run.signals_processed = (resolveSignals db signal_ids).map (fun s => s.id) ∧
    (resolveSignals db signal_ids).isEmpty = false := by
  simp only [run_distillation] at h
  cases he : (resolveSignals db signal_ids).isEmpty with
  | true => rw [he] at h; simp at h
  | false =>
    rw [he] at h
    simp only [Bool.false_eq_true, if_false] at h
    cases hcv : compressAndValidate env (nextVersionInfo db lab_id).1
        (resolveSignals db signal_ids) with
    | none => rw [hcv] at h; simp at h
    | some v0 =>
      rw [hcv] at h
      simp only [RunOutcome.ok.injEq] at h
      obtain ⟨hrun, hst⟩ := h
      subst hrun hst
      exact ⟨rfl, rfl, rfl, rfl, rfl, rfl, rfl, rfl, rfl, rfl, rfl, rfl⟩

/-- Inversion of a failing compression/parse/validation step: the session
run row is flushed with `status="failed"` and a completion time. -/
theorem run_distillation_failed_of (env : Env) (db : DB) (lab_id : Nat)
    (signal_ids : List Nat)
    (hne : (resolveSignals db signal_ids).isEmpty = false)
    (hcv : compressAndValidate env (nextVersionInfo db lab_id).1
      (resolveSignals db signal_ids) = none) :
    ∃ run, run_distillation env db lab_id signal_ids = .failed run ∧
      run.status = "failed" ∧ run.completed_at = some env.now ∧
      run.lab_id = lab_id ∧
      run.output_state_version = nextVersion db lab_id := by
  simp only [run_distillation, hne, Bool.false_eq_true, if_false, hcv]
  exact ⟨_, rfl, rfl, rfl, rfl, rfl⟩

/-- Any attempt that raises leaves the durable database unchanged: the
session is rolled back whole. -/
theorem attempt_error_db (env : Env) (snapshot db : DB) (lab_id : Nat)
    (signal_ids : List Nat) (e : RunError)
    (h : (attempt env snapshot db lab_id signal_ids).result = .error e) :
    (attempt env snapshot db lab_id signal_ids).db = db := by
  unfold attempt at h ⊢
  cases hr : run_distillation env snapshot lab_id signal_ids with
  | noSignals => rfl
  | failed run => rfl
  | ok run st =>
    rw [hr] at h
    by_cases hv : hasVersion db st.lab_id st.version = true
    · simp [hv]
    · simp [hv] at h

/-- Inversion of a successful attempt: the commit appended exactly the new
state row and the completed run row, and flipped the `processed` flags. -/
theorem attempt_ok_char (env : Env) (snapshot db : DB) (lab_id : Nat)
    (signal_ids : List Nat) (st : LabStateRow)
    (h : (attempt env snapshot db lab_id signal_ids).result = .ok st) :
    ∃ run, run_distillation env snapshot lab_id signal_ids = .ok run st ∧
      hasVersion db st.lab_id st.version = false ∧
      (attempt env snapshot db lab_id signal_ids).db.lab_states
        = db.lab_states ++ [st] ∧
      (attempt env snapshot db lab_id signal_ids).db.raw_signals
        = markProcessed db.raw_signals signal_ids ∧
      (attempt env snapshot db lab_id signal_ids).db.distillation_runs
        = db.distillation_runs ++ [run] := by
  unfold attempt at h ⊢
  cases hr : run_distillation env snapshot lab_id signal_ids with
  | noSignals => rw [hr] at h; simp at h
  | failed run => rw [hr] at h; simp at h
  | ok run st' =>
    rw [hr] at h
    by_cases hv : hasVersion db st'.lab_id st'.version = true
    · simp [hv] at h
    · simp only [Bool.not_eq_true] at hv
      simp only [hv, Bool.false_eq_true, if_false, Except.ok.injEq] at h
      subst h
      refine ⟨run, rfl, hv, ?_, ?_, ?_⟩ <;> simp [hv]

/-- Appending one state row appends its version to exactly its tenant's
version list. -/
theorem versionsOf_of_states (db db' : DB) (st : LabStateRow) (lab_id : Nat)
    (h : db'.lab_states = db.lab_states ++ [st]) :
    versionsOf db' lab_id
      = versionsOf db lab_id
        ++ (if st.lab_id == lab_id then [st.version] else []) := by
  unfold versionsOf
  rw [h, List.filter_append, List.map_append]
  cases hlab : (st.lab_id == lab_id) <;>
    simp [List.filter_cons, hlab]

/-- C1: per-tenant versions stay unique and contiguous from 1; an attempt
computes `current + 1` (1 for a fresh tenant); committing an already-taken
`(tenant, version)` pair fails and changes nothing. -/
theorem distillation_version_contiguity
    (env : Env) (snapshot db : DB) (lab_id : Nat) (signal_ids : List Nat)
    (hs : ContiguousVersions snapshot) (hd : ContiguousVersions db)
    (hsub : ∀ l v, v ∈ versionsOf snapshot l → v ∈ versionsOf db l) :
    ContiguousVersions (attempt env snapshot db lab_id signal_ids).db ∧
    (∀ st, (attempt env snapshot db lab_id signal_ids).result = .ok st →
      st.version = nextVersion snapshot lab_id ∧
      st.version = (versionsOf db lab_id).length + 1 ∧
      versionsOf (attempt env snapshot db lab_id signal_ids).db lab_id
        = versionsOf db lab_id ++ [st.version]) ∧
    (hasVersion db lab_id (nextVersion snapshot lab_id) = true →
      (attempt env snapshot db lab_id signal_ids).db = db ∧
      ∃ e, (attempt env snapshot db lab_id signal_ids).result = .error e) ∧
    (∀ l, (versionsOf (attempt env snapshot db lab_id signal_ids).db l).Nodup) := by
  by_cases hok : ∃ st, (attempt env snapshot db lab_id signal_ids).result = .ok st
  case neg =>
    have herr : ∃ e,
        (attempt env snapshot db lab_id signal_ids).result = .error e := by
      cases hres : (attempt env snapshot db lab_id signal_ids).result with
      | ok st => exact absurd ⟨st, hres⟩ hok
      | error e => exact ⟨e, rfl⟩
    obtain ⟨e, he⟩ := herr
    have hdb := attempt_error_db env snapshot db lab_id signal_ids e he
    rw [hdb]
    refine ⟨hd, ?_, ?_, ?_⟩
    · intro st hst
      rw [he] at hst
      exact absurd hst (by simp)
    · intro _
      exact ⟨rfl, e, he⟩
    · intro l
      exact ((hd l).nodup_iff).mpr (List.nodup_range' 1 _)
  case pos =>
    obtain ⟨st, hres⟩ := hok
    obtain ⟨run, hr, hv, hls, hrs, hdr⟩ :=
      attempt_ok_char env snapshot db lab_id signal_ids st hres
    obtain ⟨hstlab, hstver, -, -, -, -, -, -, -, -, -, -⟩ :=
      run_distillation_ok_char env snapshot lab_id signal_ids run st hr
    have hnv : nextVersion snapshot lab_id
        = (versionsOf snapshot lab_id).length + 1 :=
      nextVersion_of_contiguous snapshot lab_id hs
    have hstv : st.version = (versionsOf snapshot lab_id).length + 1 := by
      rw [hstver, hnv]
    have hnotin : st.version ∉ versionsOf db lab_id := by
      intro hmem
      have hb := (hasVersion_iff db lab_id st.version).mpr hmem
      rw [hstlab] at hv
      rw [hv] at hb
      simp at hb
    have hge : (versionsOf db lab_id).length ≤ (versionsOf snapshot lab_id).length := by
      by_contra hlt
      push_neg at hlt
      have hmem : st.version ∈ versionsOf db lab_id := by
        apply (hd lab_id).mem_iff.mpr
        rw [List.mem_range'_1]
        omega
      exact hnotin hmem
    have hle : (versionsOf snapshot lab_id).length ≤ (versionsOf db lab_id).length := by
      rcases Nat.eq_zero_or_pos (versionsOf snapshot lab_id).length with h0 | hpos
      · omega
      · have hkmem : (versionsOf snapshot lab_id).length ∈ versionsOf snapshot lab_id := by
          apply (hs lab_id).mem_iff.mpr
          rw [List.mem_range'_1]
          omega
        have hdbmem := hsub lab_id _ hkmem
        have hrng := (hd lab_id).mem_iff.mp hdbmem
        rw [List.mem_range'_1] at hrng
        omega
    have hkm : (versionsOf snapshot lab_id).length = (versionsOf db lab_id).length :=
      Nat.le_antisymm hle hge
    have hsv : st.version = (versionsOf db lab_id).length + 1 := by omega
    have hver : ∀ l, versionsOf (attempt env snapshot db lab_id signal_ids).db l
        = versionsOf db l ++ (if st.lab_id == l then [st.version] else []) :=
      fun l => versionsOf_of_states db _ st l hls
    have hcont : ContiguousVersions (attempt env snapshot db lab_id signal_ids).db := by
      intro l
      rw [hver l]
      cases hbl : (st.lab_id == l) with
      | false =>
        simp only [Bool.false_eq_true, if_false, List.append_nil]
        exact hd l
      | true =>
        have hleq : l = lab_id := by
          have hb := beq_iff_eq.mp hbl
          omega
        subst hleq
        simp only [if_true]
        simp only [List.length_append, List.length_singleton]
        have hrange : List.range' 1 ((versionsOf db l).length + 1)
            = List.range' 1 (versionsOf db l).length ++ [st.version] := by
          rw [List.range'_concat 1 (versionsOf db l).length]
          congr 2
          omega
        rw [hrange]
        exact (hd l).append_right [st.version]
    refine ⟨hcont, ?_, ?_, ?_⟩
    · intro st' hst'
      rw [hres] at hst'
      have hst'' : st = st' := by
        simpa using hst'
      subst hst''
      refine ⟨hstver, hsv, ?_⟩
      rw [hver lab_id, hstlab]
      simp
    · intro hhas
      exfalso
      have hmem := (hasVersion_iff db lab_id (nextVersion snapshot lab_id)).mp hhas
      rw [← hstver] at hmem
      exact hnotin hmem
    · intro l
      exact ((hcont l).nodup_iff).mpr (List.nodup_range' 1 _)

/-- A database with no committed states satisfies the contiguity invariant. -/
theorem empty_states_contiguous (db : DB) (h : db.lab_states = []) :
    ContiguousVersions db := by
  intro l
  unfold versionsOf
  rw [h]
  simp

/-- C1 witness: a concrete attempt on a fresh tenant commits version 1 and
keeps the log contiguous. -/
theorem distillation_version_contiguity_witness :
    ContiguousVersions (attempt envOK dbOne dbOne 1 [10]).db ∧
    stOne.version = (versionsOf dbOne 1).length + 1 ∧
    versionsOf (attempt envOK dbOne dbOne 1 [10]).db 1
      = versionsOf dbOne 1 ++ [stOne.version] := by
  have hc : ContiguousVersions dbOne := empty_states_contiguous dbOne rfl
  have h := distillation_version_contiguity envOK dbOne dbOne 1 [10] hc hc
    (fun l v hv => hv)
  have hres : (attempt envOK dbOne dbOne 1 [10]).result = .ok stOne := by decide
  obtain ⟨h1, h2, h3⟩ := h.2.1 stOne hres
  exact ⟨h.1, h2, h3⟩

/-- C3: a successful run commits the new state row, the `processed=true`
flips and the completed run row as one atomic unit; a failed attempt leaves
the durable database — current state and signals — exactly as before. -/
theorem run_commit_atomicity (env : Env) (db : DB) (lab_id : Nat)
    (signal_ids : List Nat) :
    (∀ st, (attempt env db db lab_id signal_ids).result = .ok st →
      ∃ run, run.status = "completed" ∧ run.completed_at = some env.now ∧
        (attempt env db db lab_id signal_ids).db.lab_states
          = db.lab_states ++ [st] ∧
        (attempt env db db lab_id signal_ids).db.raw_signals
          = markProcessed db.raw_signals signal_ids ∧
        (attempt env db db lab_id signal_ids).db.distillation_runs
          = db.distillation_runs ++ [run]) ∧
    (∀ e, (attempt env db db lab_id signal_ids).result = .error e →
      (attempt env db db lab_id signal_ids).db = db) := by
  constructor
  · intro st hst
    obtain ⟨run, hr, hv, hls, hrs, hdr⟩ :=
      attempt_ok_char env db db lab_id signal_ids st hst
    obtain ⟨-, -, -, -, -, -, -, -, hstatus, hcomp, -, -⟩ :=
      run_distillation_ok_char env db lab_id signal_ids run st hr
    exact ⟨run, hstatus, hcomp, hls, hrs, hdr⟩
  · intro e he
    exact attempt_error_db env db db lab_id signal_ids e he

/-- C3 witness: the success case commits the expected rows; the failure case
(malformed response) leaves the database untouched. -/
theorem run_commit_atomicity_witness :
    (attempt envOK dbOne dbOne 1 [10]).db.lab_states
      = dbOne.lab_states ++ [stOne] ∧
    (attempt envOK dbOne dbOne 1 [10]).db.raw_signals
      = markProcessed dbOne.raw_signals [10] ∧
    (attempt envBad dbOne dbOne 1 [10]).db = dbOne := by
  obtain ⟨run, -, -, hls, hrs, -⟩ :=
    (run_commit_atomicity envOK dbOne 1 [10]).1 stOne (by decide)
  exact ⟨hls, hrs,
    (run_commit_atomicity envBad dbOne 1 [10]).2 .distillationFailed (by decide)⟩

/-- C2 evaluation at the failing input: a signal owned by lab 2 is passed to
a run for lab 1; the unscoped queries resolve it into the batch (hence into
the prompt text), record its id on the run row, flip it to
`processed=true`, and the attempt commits. -/
theorem cross_tenant_signal_folded :
    (attempt envOK dbCross dbCross 1 [10]).result = .ok stOne ∧
    (attempt envOK dbCross dbCross 1 [10]).db.raw_signals.map
      (fun s => (s.id, s.lab_id, s.processed)) = [(10, 2, true)] ∧
    (attempt envOK dbCross dbCross 1 [10]).db.distillation_runs.map
      (fun r => r.signals_processed) = [[10]] := by
  refine ⟨by decide, by decide, by decide⟩

/-- C4 evaluation at the failing input: on a failing attempt the session
flushes a `status="failed"` run row (`failedRunOne`), but the task never
commits it — the rollback discards it, so the durable run ledger stays
empty while the error still propagates to the caller. -/
theorem failed_run_row_not_durable :
    run_distillation envBad dbOne 1 [10] = .failed failedRunOne ∧
    failedRunOne.status = "failed" ∧
    failedRunOne.completed_at = some 100 ∧
    (attempt envBad dbOne dbOne 1 [10]).result = .error .distillationFailed ∧
    (attempt envBad dbOne dbOne 1 [10]).db.distillation_runs = [] := by
  refine ⟨by decide, rfl, rfl, by decide, by decide⟩

/-- C6: the committed counter equals the previous version's counter (0 for a
fresh tenant) plus the number of resolved signals — the LLM-returned counter
is overridden — and it never decreases. -/
theorem signal_count_monotone (env : Env) (db : DB) (lab_id : Nat)
    (signal_ids : List Nat) (run : DistillationRunRow) (st : LabStateRow)
    (h : run_distillation env db lab_id signal_ids = .ok run st) :
    st.state.signal_count
      = prevSignalCount db lab_id + (resolveSignals db signal_ids).length ∧
    (latestState db lab_id = none → prevSignalCount db lab_id = 0) ∧
    prevSignalCount db lab_id ≤ st.state.signal_count := by
  obtain ⟨-, -, hcount, -, -, -, -, -, -, -, -, -⟩ :=
    run_distillation_ok_char env db lab_id signal_ids run st h
  refine ⟨hcount, ?_, ?_⟩
  · intro hnone
    unfold prevSignalCount nextVersionInfo
    rw [hnone]
    rfl
  · rw [hcount]
    exact Nat.le_add_right _ _

/-- C6 witness: the concrete fresh-tenant run commits counter 0 + 1 = 1. -/
theorem signal_count_monotone_witness :
    stOne.state.signal_count
      = prevSignalCount dbOne 1 + (resolveSignals dbOne [10]).length ∧
    prevSignalCount dbOne 1 ≤ stOne.state.signal_count := by
  have h := signal_count_monotone envOK dbOne 1 [10] runOne stOne (by decide)
  exact ⟨h.1, h.2.2⟩

/-- C7 (amended): an empty id list, or ids resolving to no rows at all,
raise `NoSignalsError` before any run-row reservation and leave the durable
database unchanged; but a trigger with `signal_ids = none` on a tenant with
zero unprocessed signals returns the no-signals outcome without raising
(and without any new state version or run row). -/
theorem no_signals_behaviour (env : Env) (db : DB) (lab_id : Nat)
    (signal_ids : List Nat) :
    (signal_ids = [] → run_distillation env db lab_id signal_ids = .noSignals) ∧
    ((∀ s ∈ db.raw_signals, s.id ∉ signal_ids) →
      run_distillation env db lab_id signal_ids = .noSignals) ∧
    (run_distillation env db lab_id signal_ids = .noSignals →
      (attempt env db db lab_id signal_ids).db = db ∧
      (attempt env db db lab_id signal_ids).result = .error .noSignals) ∧
    ((∀ s ∈ db.raw_signals, s.lab_id = lab_id → s.processed = true) →
      distillTask env db lab_id none = ⟨db, .ok .noSignalsMsg⟩) := by
  refine ⟨?_, ?_, ?_, ?_⟩
  · intro hnil
    subst hnil
    rw [run_distillation_noSignals_iff]
    simp [resolveSignals]
  · intro hnone
    rw [run_distillation_noSignals_iff]
    rw [List.isEmpty_iff]
    apply List.filter_eq_nil_iff.mpr
    intro s hs
    have := hnone s hs
    simp only [List.contains_iff_exists_mem_beq]
    push_neg
    intro x hx
    intro hbeq
    exact this ((beq_iff_eq.mp hbeq) ▸ hx)
  · intro hno
    unfold attempt
    rw [hno]
    exact ⟨rfl, rfl⟩
  · intro hall
    have hemp : get_unprocessed_signals db lab_id 10 = [] := by
      unfold get_unprocessed_signals
      have hfil : db.raw_signals.filter
          (fun s => s.lab_id == lab_id && !s.processed) = [] := by
        apply List.filter_eq_nil_iff.mpr
        intro s hs
        simp only [Bool.and_eq_true, beq_iff_eq, Bool.not_eq_eq_eq_not,
          Bool.not_true, not_and]
        intro hlab
        rw [hall s hs hlab]
        simp
      rw [hfil]
      rfl
    unfold distillTask
    simp only [hemp]
    rfl

/-- C7 counterexample: with zero unprocessed signals, re-triggering through
the task does not fail with `NoSignalsError` — it returns the no-signals
dict as a normal result. -/
theorem retrigger_no_unprocessed_returns_ok :
    (distillTask envOK dbProcessed 1 none).result = .ok .noSignalsMsg ∧
    (distillTask envOK dbProcessed 1 none).result ≠ .error .noSignals ∧
    (distillTask envOK dbProcessed 1 none).db.lab_states = [] ∧
    (distillTask envOK dbProcessed 1 none).db.distillation_runs = [] := by
  refine ⟨by decide, by decide, by decide, by decide⟩

/-- C7 witness: an empty id list raises before any reservation, and the
no-unprocessed trigger returns the no-signals outcome, database unchanged. -/
theorem no_signals_behaviour_witness :
    run_distillation envOK dbOne 1 [] = .noSignals ∧
    (attempt envOK dbOne dbOne 1 []).db = dbOne ∧
    distillTask envOK dbProcessed 1 none = ⟨dbProcessed, .ok .noSignalsMsg⟩ := by
  have h1 := (no_signals_behaviour envOK dbOne 1 []).1 rfl
  have h2 := ((no_signals_behaviour envOK dbOne 1 []).2.2.1 h1).1
  have h3 := (no_signals_behaviour envOK dbProcessed 1 []).2.2.2 (by decide)
  exact ⟨h1, h2, h3⟩

/-- C8: a response that does not parse (after fence stripping) or fails
schema validation never becomes a committed state version: the run row ends
`status="failed"`, the error propagates, and the database is unchanged. -/
theorem invalid_response_never_commits (env : Env) (db : DB) (lab_id : Nat)
    (signal_ids : List Nat) (content : String)
    (hne : (resolveSignals db signal_ids).isEmpty = false)
    (hllm : env.llm (user_prompt env (nextVersionInfo db lab_id).1
      (resolveSignals db signal_ids)) = some content)
    (hbad : env.jsonParse (parseResponseText content) = none ∨
      ∃ j, env.jsonParse (parseResponseText content) = some j ∧
        LabStateData.validate j = none) :
    (∃ run, run_distillation env db lab_id signal_ids = .failed run ∧
      run.status = "failed" ∧ run.completed_at = some env.now) ∧
    (attempt env db db lab_id signal_ids).result = .error .distillationFailed ∧
    (attempt env db db lab_id signal_ids).db = db := by
  have hcv : compressAndValidate env (nextVersionInfo db lab_id).1
      (resolveSignals db signal_ids) = none := by
    unfold compressAndValidate
    rw [hllm]
    rcases hbad with hp | ⟨j, hj, hv⟩
    · simp [hp]
    · simp [hj, hv]
  obtain ⟨run, hrun, hstatus, hcomp, -, -⟩ :=
    run_distillation_failed_of env db lab_id signal_ids hne hcv
  have herr : (attempt env db db lab_id signal_ids).result
      = .error .distillationFailed := by
    unfold attempt
    rw [hrun]
  exact ⟨⟨run, hrun, hstatus, hcomp⟩, herr,
    attempt_error_db env db db lab_id signal_ids _ herr⟩

/-- C8 witness: the malformed-response environment on the fresh tenant ends
failed with no commit. -/
theorem invalid_response_never_commits_witness :
    (attempt envBad dbOne dbOne 1 [10]).result = .error .distillationFailed ∧
    (attempt envBad dbOne dbOne 1 [10]).db = dbOne := by
  have h := invalid_response_never_commits envBad dbOne 1 [10]
    "this is not the expected structured format" (by decide) rfl (Or.inl rfl)
  exact ⟨h.2.1, h.2.2⟩

/-- C9: a token-budget overrun does not block the commit: a successful
pipeline whose measured size exceeds `max_state_tokens` still commits its
snapshot (degraded, not rejected). -/
theorem budget_overrun_still_commits (env : Env) (db : DB) (lab_id : Nat)
    (signal_ids : List Nat) (run : DistillationRunRow) (st : LabStateRow)
    (hd : ContiguousVersions db)
    (h : run_distillation env db lab_id signal_ids = .ok run st)
    (hover : env.max_state_tokens < st.token_count) :
    (attempt env db db lab_id signal_ids).result = .ok st ∧
    (attempt env db db lab_id signal_ids).db.lab_states
      = db.lab_states ++ [st] := by
  obtain ⟨hstlab, hstver, -, -, -, -, -, -, -, -, -, -⟩ :=
    run_distillation_ok_char env db lab_id signal_ids run st h
  have hstv : st.version = (versionsOf db lab_id).length + 1 := by
    rw [hstver, nextVersion_of_contiguous db lab_id hd]
  have hv : hasVersion db st.lab_id st.version = false := by
    rw [hstlab]
    cases hb : hasVersion db lab_id st.version with
    | false => rfl
    | true =>
      exfalso
      have hmem := (hasVersion_iff db lab_id st.version).mp hb
      have hrng := (hd lab_id).mem_iff.mp hmem
      rw [List.mem_range'_1] at hrng
      omega
  constructor
  · unfold attempt
    rw [h]
    simp [hv]
  · unfold attempt
    rw [h]
    simp [hv]

/-- C9 witness: with a token counter reporting 5000 against a budget of
2000, the attempt still commits the snapshot with that count. -/
theorem budget_overrun_still_commits_witness :
    envBig.max_state_tokens < 5000 ∧
    (attempt envBig dbOne dbOne 1 [10]).result
      = .ok { lab_id := 1, version := 1, state := { signal_count := 1 },
              token_count := 5000, created_by := "system" } := by
  have hc : ContiguousVersions dbOne := empty_states_contiguous dbOne rfl
  have h := budget_overrun_still_commits envBig dbOne 1 [10] runOne
    { lab_id := 1, version := 1, state := { signal_count := 1 },
      token_count := 5000, created_by := "system" }
    hc (by decide) (by decide)
  exact ⟨by decide, h.1⟩

/-- Inserting by time is a permutation of consing. -/
theorem insertByTime_perm (s : RawSignalRow) (l : List RawSignalRow) :
    (insertByTime s l).Perm (s :: l) := by
  induction l with
  | nil => exact List.Perm.refl _
  | cons t ts ih =>
    unfold insertByTime
    by_cases hlt : s.created_at < t.created_at
    · simp only [hlt, if_true]
      exact List.Perm.refl _
    · simp only [hlt, if_false]
      exact (ih.cons t).trans (List.Perm.swap s t ts)

/-- The stable sort is a permutation of its input. -/
theorem sortByCreatedAt_perm (l : List RawSignalRow) :
    (sortByCreatedAt l).Perm l := by
  induction l with
  | nil => exact List.Perm.refl _
  | cons s ss ih =>
    exact (insertByTime_perm s (sortByCreatedAt ss)).trans (ih.cons s)

/-- C5 (amended): the "all unprocessed" trigger selects only the tenant's
unprocessed signals, oldest first, but capped at the fixed default limit of
10 — not all of them — and runs the attempt on exactly that batch. -/
theorem trigger_none_selects_capped_batch (env : Env) (db : DB)
    (lab_id : Nat) :
    get_unprocessed_signals db lab_id
      = (sortByCreatedAt (db.raw_signals.filter
          (fun s => s.lab_id == lab_id && !s.processed))).take 10 ∧
    (get_unprocessed_signals db lab_id).length ≤ 10 ∧
    (get_unprocessed_signals db lab_id).all
      (fun s => s.lab_id == lab_id && !s.processed) = true ∧
    ((get_unprocessed_signals db lab_id 10).isEmpty = false →
      distillTask env db lab_id none
        = runTask env db lab_id
            ((get_unprocessed_signals db lab_id 10).map (fun s => s.id))) := by
  refine ⟨rfl, ?_, ?_, ?_⟩
  · unfold get_unprocessed_signals
    rw [List.length_take]
    exact Nat.min_le_left _ _
  · rw [List.all_eq_true]
    intro s hs
    have h1 : s ∈ sortByCreatedAt (db.raw_signals.filter
        (fun x => x.lab_id == lab_id && !x.processed)) :=
      List.mem_of_mem_take hs
    have h2 := (sortByCreatedAt_perm _).mem_iff.mp h1
    exact (List.mem_filter.mp h2).2
  · intro hne
    unfold distillTask
    simp only [hne, Bool.false_eq_true, if_false]

/-- C5 counterexample: lab 1 has 11 unprocessed signals, yet the
`signal_ids = none` trigger batches only the 10 oldest — signal 11 is
unprocessed at selection time but excluded, and remains unprocessed after
the completed run. -/
theorem trigger_none_excludes_eleventh :
    (dbEleven.raw_signals.filter
      (fun s => s.lab_id == 1 && !s.processed)).length = 11 ∧
    (distillTask envOK dbEleven 1 none).result = .ok (.completed 1 0 10) ∧
    ((distillTask envOK dbEleven 1 none).db.raw_signals.filter
      (fun s => !s.processed)).map (fun s => s.id) = [11] := by
  refine ⟨by decide, by decide, by decide⟩

/-- C5 witness: on the 11-signal fixture the selection is capped at 10,
every selected signal is lab 1's and unprocessed, and the task runs on
exactly the selected batch. -/
theorem trigger_none_selects_capped_batch_witness :
    (get_unprocessed_signals dbEleven 1).length ≤ 10 ∧
    (get_unprocessed_signals dbEleven 1).all
      (fun s => s.lab_id == 1 && !s.processed) = true ∧
    distillTask envOK dbEleven 1 none
      = runTask envOK dbEleven 1
          ((get_unprocessed_signals dbEleven 1 10).map (fun s => s.id)) := by
  have h := trigger_none_selects_capped_batch envOK dbEleven 1
  exact ⟨h.2.1, h.2.2.1, h.2.2.2 (by decide)⟩

/-- C10: when the stripped response starts with a code fence, the parser
joins `lines[1:-1]` — dropping the first and last line unconditionally; a
one-line fenced response therefore parses as the empty string, and an
unfenced response is parsed as the stripped text unchanged. -/
theorem fence_stripping_behaviour (content : String) :
    (startsWithFence (pyStrip content) = true →
      parseResponseText content
        = joinLines (((splitLines (pyStrip content)).drop 1).dropLast)) ∧
    (startsWithFence (pyStrip content) = true →
      (splitLines (pyStrip content)).length = 1 →
      parseResponseText content = "") ∧
    (startsWithFence (pyStrip content) = false →
      parseResponseText content = pyStrip content) := by
  refine ⟨?_, ?_, ?_⟩
  · intro hf
    simp only [parseResponseText, hf, if_true]
  · intro hf hlen
    simp only [parseResponseText, hf, if_true]
    obtain ⟨a, ha⟩ := List.length_eq_one.mp hlen
    rw [ha]
    rfl
  · intro hf
    simp only [parseResponseText, hf, Bool.false_eq_true, if_false]

/-- C10 witness: a fenced single-line response parses to the empty string; a
fenced response without a closing fence loses its last line; an unfenced
response is parsed as stripped. -/
theorem fence_stripping_behaviour_witness :
    parseResponseText "```json" = "" ∧
    parseResponseText "```json\nsome content" = "" ∧
    parseResponseText "plain text" = "plain text" := by
  have h1 := (fence_stripping_behaviour "```json").2.1 (by decide) (by decide)
  have h2 := (fence_stripping_behaviour "```json\nsome content").1 (by decide)
  have h3 := (fence_stripping_behaviour "plain text").2.2 (by decide)
  refine ⟨h1, ?_, ?_⟩
  · rw [h2]
    decide
  · rw [h3]
    decide
